import Mathlib

/-!
Verification development for the cargo-deploy tool in src/main.rs.

The program is a single-binary deployment workflow: it loads or creates a
JSON config (cargo_deploy.json), prompts for missing fields, builds the
project with a cross compiler, bootstraps SSH trust, ensures the remote
destination directory exists, and copies the artifact with scp.

We embed the program shallowly:
- pure string code (sanitize_hostname, path formatting) becomes pure
  functions over List Char / String;
- every external effect (stdin prompt, file write, subprocess invocation)
  becomes an Event in an explicit trace, and the outcomes of subprocesses
  and environment lookups are supplied by a World record of oracles;
- a Rust function that terminates the process through a failed expect or
  an explicit abort is modelled as returning Except.error with the
  corresponding message.
-/

/-- Mirrors the Rust struct Config (src/main.rs lines 18-24):
four optional string fields, serialized to cargo_deploy.json. -/
structure Config where
  target_arch : Option String
  target_dest : Option String
  target_name : Option String
  target_user : Option String
deriving DecidableEq

/-- Mirrors impl Default for Config (src/main.rs lines 26-35). -/
def Config.default : Config :=
  { target_arch := some "aarch64-unknown-linux-gnu"
    target_dest := some "/home/raspberry/bin"
    target_name := none
    target_user := none }

/-- Mirrors Rust char::is_ascii_alphanumeric. -/
def isAsciiAlnum (c : Char) : Bool :=
  ('A' ≤ c && c ≤ 'Z') || ('a' ≤ c && c ≤ 'z') || ('0' ≤ c && c ≤ '9')

/-- Guard of the character loop of sanitize_hostname (src/main.rs line
135): ASCII alphanumeric, dash or underscore. These are also exactly the
characters the sanitizer may emit. -/
def allowedChar (c : Char) : Bool :=
  isAsciiAlnum c || c == '-' || c == '_'

/-- Character-level step of sanitize_hostname (src/main.rs lines 134-140):
keep a character satisfying the guard, replace every other character by an
underscore. -/
def sanChar (c : Char) : Char :=
  if allowedChar c then c else '_'

/-- One pass of the Rust str::replace with pattern two underscores and
replacement one underscore: leftmost, non-overlapping. -/
def replaceUU : List Char → List Char
  | [] => []
  | [c] => [c]
  | a :: b :: rest =>
    if a == '_' && b == '_' then '_' :: replaceUU rest
    else a :: replaceUU (b :: rest)

/-- Mirrors the Rust str::contains check for two adjacent underscores. -/
def containsUU : List Char → Bool
  | [] => false
  | [_] => false
  | a :: b :: rest => (a == '_' && b == '_') || containsUU (b :: rest)

/-- Fuelled form of the while loop of sanitize_hostname
(src/main.rs lines 143-145): replace double underscores until none remain.
Each pass that fires strictly shortens the list (replaceUU_length_lt), so
the Rust loop makes at most length-many passes; running the fuelled loop
with fuel = length is therefore an exact model of the unbounded loop, which
collapse_not_containsUU confirms by showing the exit condition is reached. -/
def collapseGo : Nat → List Char → List Char
  | 0, l => l
  | n + 1, l => if containsUU l then collapseGo n (replaceUU l) else l

/-- Mirrors the while loop of sanitize_hostname (src/main.rs lines 143-145). -/
def collapse (l : List Char) : List Char :=
  collapseGo l.length l

/-- Removes trailing characters satisfying p, mirroring the trailing half of
Rust str::trim_matches / str::trim. -/
def dropTrailingIf (p : Char → Bool) : List Char → List Char
  | [] => []
  | c :: rest =>
    let r := dropTrailingIf p rest
    if r.isEmpty && p c then [] else c :: r

/-- Mirrors Rust str::trim_matches applied to the underscore
(src/main.rs line 147): strip leading and trailing underscores. -/
def trimUnderscores (l : List Char) : List Char :=
  dropTrailingIf (· == '_') (l.dropWhile (· == '_'))

/-- The whole body of sanitize_hostname at the level of character lists:
map the characters, collapse double underscores, trim underscores. -/
def sanitizeList (l : List Char) : List Char :=
  trimUnderscores (collapse (l.map sanChar))

/-- Mirrors pub fn sanitize_hostname (src/main.rs lines 131-148). -/
def sanitize_hostname (s : String) : String :=
  ⟨sanitizeList s.data⟩

/-- Mirrors Rust str::trim on prompt input (whitespace on both ends;
the model uses the ASCII whitespace set of Char.isWhitespace). -/
def trimWS (s : String) : String :=
  ⟨dropTrailingIf Char.isWhitespace (s.data.dropWhile Char.isWhitespace)⟩

/-!
Event-trace model of the workflow. Every observable effect of the program
is one Event; each component function returns the list of events it emits
together with an Except result standing for normal return versus process
abort with a message.
-/

/-- Observable effects of the program, in the order they are emitted. -/
inductive Event where
  /-- stdin prompt for the remote hostname (src/main.rs lines 45-48). -/
  | promptHost : Event
  /-- stdin prompt for the remote username (src/main.rs lines 54-57). -/
  | promptUser : Event
  /-- fs::write of cargo_deploy.json with the given record (line 128). -/
  | writeConfig : Config → Event
  /-- cross build --target arch, with or without --release (lines 217-224). -/
  | runBuild : String → Bool → Event
  /-- ssh connectivity probe in batch mode, 5 second timeout (lines 154-163). -/
  | sshProbe : String → Event
  /-- ssh-keygen -t ed25519 -f keyPath -N emptypass -C comment (lines 190-193). -/
  | sshKeygen : String → Event
  /-- ssh-copy-id -i keyPath connectionString (lines 200-203). -/
  | sshCopyId : String → String → Event
  /-- ssh connectionString mkdir -p dest (lines 249-253). -/
  | sshMkdir : String → String → Event
  /-- cargo metadata query for the binary target name (lines 231-233). -/
  | cargoMetadata : Event
  /-- scp hostPath dest, stdout suppressed (lines 97-102). -/
  | scpUpload : String → String → Event
deriving DecidableEq

/-- Oracles for everything the program reads from its surroundings: the
parsed contents of cargo_deploy.json when the file exists, the two stdin
lines, the HOME variable, the existence of the key file, and the exit
outcome of each subprocess the program may spawn. A false outcome covers
both a non-zero exit status and, where the Rust code treats them alike,
a spawn failure. Read or parse failures of an existing config file abort
the run before the workflow starts and are outside the modelled claims. -/
structure World where
  configFile : Option Config
  stdinHost : String
  stdinUser : String
  homeVar : Option String
  probeOk : Bool
  keyFileExists : Bool
  keygenOk : Bool
  copyIdOk : Bool
  buildOk : Bool
  mkdirOk : Bool
  metadataBin : Option String
  scpOk : Bool

/-- Mirrors struct Args (src/main.rs lines 11-16): one flag, --debug. -/
structure Args where
  debug : Bool

/-- Mirrors fn save_config (src/main.rs lines 126-129): serialize the
record and write cargo_deploy.json. -/
def save_config (c : Config) : List Event :=
  [Event.writeConfig c]

/-- Mirrors fn load_or_create_config (src/main.rs lines 112-124): return
the parsed file when present, otherwise persist and return the default. -/
def load_or_create_config (w : World) : List Event × Config :=
  match w.configFile with
  | some c => ([], c)
  | none => (save_config Config.default, Config.default)

/-- Mirrors the two prompt blocks of fn main (src/main.rs lines 43-63):
fill target_name from stdin when missing, then fill target_user from stdin
when missing, rewriting target_dest alongside it; the returned flag is the
need_save variable. -/
def promptMissing (w : World) (c : Config) : List Event × Config × Bool :=
  let (tr1, c1, s1) :=
    match c.target_name with
    | none => ([Event.promptHost], { c with target_name := some (trimWS w.stdinHost) }, true)
    | some _ => ([], c, false)
  let (tr2, c2, s2) :=
    match c1.target_user with
    | none =>
      let username := trimWS w.stdinUser
      ([Event.promptUser],
       { c1 with target_user := some username,
                 target_dest := some ("/home/" ++ username ++ "/bin") }, true)
    | some _ => ([], c1, false)
  (tr1 ++ tr2, c2, s1 || s2)

/-- Comment string passed to ssh-keygen (src/main.rs lines 185-189); the
crate name and version are compile-time constants of the tool. -/
def keygenComment : String :=
  "Key generated by protogen_renderer_bevy_builder"

/-- Mirrors fn configure_ssh_key (src/main.rs lines 150-208): probe ssh in
batch mode; on success return at once; otherwise resolve HOME, compute the
deterministic key path, generate a key only when the file is absent, then
install it with ssh-copy-id. -/
def configure_ssh_key (w : World) (target_name target_user : String) :
    List Event × Except String Unit :=
  let connection_string := target_user ++ "@" ++ target_name
  let probeTr := [Event.sshProbe connection_string]
  if w.probeOk then (probeTr, Except.ok ())
  else
    match w.homeVar with
    | none => (probeTr, Except.error "HOME environment variable not set")
    | some home =>
      let key_path :=
        home ++ "/.ssh/id_ed25519_" ++ target_user ++ "_" ++ sanitize_hostname target_name
      let genTr := if w.keyFileExists then [] else [Event.sshKeygen key_path]
      if w.keyFileExists || w.keygenOk then
        let copyTr := [Event.sshCopyId key_path connection_string]
        if w.copyIdOk then (probeTr ++ genTr ++ copyTr, Except.ok ())
        else (probeTr ++ genTr ++ copyTr, Except.error "ssh-copy-id failed")
      else (probeTr ++ genTr, Except.error "SSH key generation failed")

/-- Mirrors fn build (src/main.rs lines 210-228): run the cross build and
abort on non-zero exit. -/
def build (w : World) (target_arch : String) (release : Bool) :
    List Event × Except String Unit :=
  ([Event.runBuild target_arch release],
   if w.buildOk then Except.ok () else Except.error "Build failed")

/-- Mirrors fn detect_binary_name (src/main.rs lines 230-244): query cargo
metadata and return the name of the binary target, aborting when the
metadata query, root package or binary target resolution fails. -/
def detect_binary_name (w : World) : List Event × Except String String :=
  ([Event.cargoMetadata],
   match w.metadataBin with
   | some name => Except.ok name
   | none => Except.error "No binary target found")

/-- Mirrors fn create_remote_directory (src/main.rs lines 246-258): run
mkdir -p over ssh and abort on non-zero exit. -/
def create_remote_directory (w : World) (target_name target_user target_dest : String) :
    List Event × Except String Unit :=
  let connection_string := target_user ++ "@" ++ target_name
  ([Event.sshMkdir connection_string target_dest],
   if w.mkdirOk then Except.ok ()
   else Except.error "Failed to create remote directory")

/-- Mirrors fn deploy (src/main.rs lines 94-110): scp the artifact and
abort on non-zero exit with a message naming the target host. -/
def deploy (w : World) (host_path target_name target_user target_dest : String) :
    List Event × Except String Unit :=
  let connection_string := target_user ++ "@" ++ target_name
  ([Event.scpUpload host_path (connection_string ++ ":" ++ target_dest)],
   if w.scpOk then Except.ok ()
   else Except.error ("SCP file transfer failed. Check your connection to " ++ target_name))

/-- Mirrors fn main (src/main.rs lines 37-92): load or create the config,
prompt for missing fields, persist when a prompt filled a field, build,
bootstrap ssh trust, ensure the remote directory, resolve the artifact
name, and upload. The trace lists the emitted events in program order and
the result is ok exactly when the process reaches the final completion
message. -/
def runMain (w : World) (args : Args) : List Event × Except String Unit :=
  let release_mode := !args.debug
  let (trLoad, config0) := load_or_create_config w
  let (trPrompt, config, need_save) := promptMissing w config0
  let trSave := if need_save then save_config config else []
  let target_arch := config.target_arch.getD "aarch64-unknown-linux-gnu"
  let trCfg := trLoad ++ trPrompt ++ trSave
  match build w target_arch release_mode with
  | (trB, Except.error e) => (trCfg ++ trB, Except.error e)
  | (trB, Except.ok _) =>
    match config.target_name, config.target_user with
    | some target_name, some target_user =>
      match configure_ssh_key w target_name target_user with
      | (trS, Except.error e) => (trCfg ++ trB ++ trS, Except.error e)
      | (trS, Except.ok _) =>
        let target_dest := config.target_dest.getD "/home/raspberry/bin"
        match create_remote_directory w target_name target_user target_dest with
        | (trM, Except.error e) => (trCfg ++ trB ++ trS ++ trM, Except.error e)
        | (trM, Except.ok _) =>
          match detect_binary_name w with
          | (trD, Except.error e) => (trCfg ++ trB ++ trS ++ trM ++ trD, Except.error e)
          | (trD, Except.ok bin_name) =>
            let profile_dir := if release_mode then "release" else "debug"
            let binary_path :=
              "target/" ++ target_arch ++ "/" ++ profile_dir ++ "/" ++ bin_name
            match deploy w binary_path target_name target_user target_dest with
            | (trC, r) => (trCfg ++ trB ++ trS ++ trM ++ trD ++ trC, r)
    | _, _ =>
      (trCfg ++ trB, Except.error "called Option unwrap on a None value")

/-!
JSON model for the persisted config. save_config serializes the record
with serde_json and load_or_create_config parses it back; the textual
printing and lexing layer belongs to the external serde_json crate, so the
round trip is stated at the level of the JSON document tree that crate
prints and parses.
-/

/-- JSON document tree, restricted to the forms the config schema uses. -/
inductive Json where
  | null : Json
  | str : String → Json
  | obj : List (String × Json) → Json

/-- Serialization of one optional string field, as serde emits it:
None becomes null and Some s becomes the string s. -/
def encodeOptStr : Option String → Json
  | none => Json.null
  | some s => Json.str s

/-- Serialization of the Config record as serde_json renders it for
save_config (src/main.rs line 127): an object with the four fields in
declaration order. -/
def encodeConfig (c : Config) : Json :=
  Json.obj
    [("target_arch", encodeOptStr c.target_arch),
     ("target_dest", encodeOptStr c.target_dest),
     ("target_name", encodeOptStr c.target_name),
     ("target_user", encodeOptStr c.target_user)]

/-- First value bound to the given key in a JSON object body. -/
def findField (name : String) : List (String × Json) → Option Json
  | [] => none
  | (k, v) :: rest => if k == name then some v else findField name rest

/-- Deserialization of one optional string field, as the serde derive
reads it for load_or_create_config (src/main.rs line 117): a missing field
or null gives None, a string gives Some, any other shape is a parse error. -/
def decodeOptStr (fields : List (String × Json)) (name : String) :
    Option (Option String) :=
  match findField name fields with
  | none => some none
  | some Json.null => some none
  | some (Json.str s) => some (some s)
  | some (Json.obj _) => none

/-- Deserialization of the Config record from a JSON document, as the
serde derive used by load_or_create_config performs it; a non-object
document or an ill-typed field is a parse error. -/
def decodeConfig : Json → Option Config
  | Json.obj fields => do
    let ta ← decodeOptStr fields "target_arch"
    let td ← decodeOptStr fields "target_dest"
    let tn ← decodeOptStr fields "target_name"
    let tu ← decodeOptStr fields "target_user"
    pure { target_arch := ta, target_dest := td, target_name := tn, target_user := tu }
  | _ => none

/-!
Trace observers. Each one is a computable function over the event list, so
a concrete run can be settled by evaluation.
-/

/-- Position of the event in the fixed step order of fn main:
config work, build, ssh trust bootstrap, remote directory, artifact name
resolution, upload. -/
def stepRank : Event → Nat
  | Event.promptHost => 0
  | Event.promptUser => 0
  | Event.writeConfig _ => 0
  | Event.runBuild _ _ => 1
  | Event.sshProbe _ => 2
  | Event.sshKeygen _ => 2
  | Event.sshCopyId _ _ => 2
  | Event.sshMkdir _ _ => 3
  | Event.cargoMetadata => 4
  | Event.scpUpload _ _ => 5

/-- Holds when the step ranks along the trace never decrease, i.e. the
trace respects the fixed step order. -/
def ranksSorted : List Event → Bool
  | [] => true
  | [_] => true
  | a :: b :: rest => Nat.ble (stepRank a) (stepRank b) && ranksSorted (b :: rest)

/-- Holds when no ssh connectivity probe appears after a build invocation,
i.e. every trust-bootstrap probe precedes every build. This is the order
claimed by the overview section of the spec. -/
def probesBeforeBuilds : List Event → Bool
  | [] => true
  | Event.runBuild _ _ :: rest =>
    rest.all (fun e => match e with | Event.sshProbe _ => false | _ => true)
      && probesBeforeBuilds rest
  | _ :: rest => probesBeforeBuilds rest

/-- Configs written to cargo_deploy.json along the trace, in order. -/
def writtenConfigs : List Event → List Config
  | [] => []
  | Event.writeConfig c :: rest => c :: writtenConfigs rest
  | _ :: rest => writtenConfigs rest

/-- Architecture and release-mode arguments of the build invocations along
the trace, in order. -/
def buildInvocations : List Event → List (String × Bool)
  | [] => []
  | Event.runBuild a r :: rest => (a, r) :: buildInvocations rest
  | _ :: rest => buildInvocations rest

/-- Destination directories of the remote mkdir invocations along the
trace, in order. -/
def mkdirDests : List Event → List String
  | [] => []
  | Event.sshMkdir _ d :: rest => d :: mkdirDests rest
  | _ :: rest => mkdirDests rest

/-- Key paths passed to ssh-keygen along the trace, in order. -/
def keygenPaths : List Event → List String
  | [] => []
  | Event.sshKeygen p :: rest => p :: keygenPaths rest
  | _ :: rest => keygenPaths rest

/-- Key path and connection string of each ssh-copy-id invocation along
the trace, in order. -/
def copyIdInvocations : List Event → List (String × String)
  | [] => []
  | Event.sshCopyId p c :: rest => (p, c) :: copyIdInvocations rest
  | _ :: rest => copyIdInvocations rest

/-- Source and destination of each scp invocation along the trace. -/
def scpInvocations : List Event → List (String × String)
  | [] => []
  | Event.scpUpload s d :: rest => (s, d) :: scpInvocations rest
  | _ :: rest => scpInvocations rest

/-- Holds when every event of the trace belongs to the configuration
phase or the build step, i.e. no step after the build left any effect. -/
def allPreTrust (tr : List Event) : Bool :=
  tr.all (fun e => Nat.ble (stepRank e) 1)

/-- Holds when every event of the trace precedes the artifact name
resolution step, i.e. neither the metadata query nor the upload ran. -/
def allPreMetadata (tr : List Event) : Bool :=
  tr.all (fun e => Nat.ble (stepRank e) 3)

/-- Holds exactly when the run ended in a process abort. -/
def resultIsError : Except String Unit → Bool
  | Except.error _ => true
  | Except.ok _ => false

/-- Sample config with every field present, for concrete runs. -/
def fullConfig : Config :=
  { target_arch := some "aarch64-unknown-linux-gnu"
    target_dest := some "/home/raspberry/bin"
    target_name := some "pi.local"
    target_user := some "alice" }

/-- Sample world where the config file holds fullConfig and every
subprocess succeeds, for concrete runs. -/
def okWorld : World :=
  { configFile := some fullConfig
    stdinHost := "pi.local"
    stdinUser := "alice"
    homeVar := some "/home/dev"
    probeOk := true
    keyFileExists := false
    keygenOk := true
    copyIdOk := true
    buildOk := true
    mkdirOk := true
    metadataBin := some "protogen_renderer"
    scpOk := true }

/-- Sample config with a custom destination path and no user, for
exercising the prompt that rewrites target_dest. -/
def customDestConfig : Config :=
  { target_arch := some "x86_64-unknown-linux-gnu"
    target_dest := some "/opt/tools/bin"
    target_name := some "pi.local"
    target_user := none }

/-!
Lemmas. First the sanitizer: termination of the collapse loop, the
character-set, double-underscore and boundary invariants of its output,
and the fixed-point facts behind idempotence.
-/

theorem replaceUU_length_le : ∀ l : List Char, (replaceUU l).length ≤ l.length
  | [] => by simp [replaceUU]
  | [c] => by simp [replaceUU]
  | a :: b :: rest => by
    by_cases hp : (a == '_' && b == '_') = true
    · have := replaceUU_length_le rest
      simp only [replaceUU, if_pos hp, List.length_cons]
      omega
    · have := replaceUU_length_le (b :: rest)
      simp only [replaceUU, if_neg hp, List.length_cons]
      simp only [List.length_cons] at this
      omega

theorem replaceUU_length_lt : ∀ l : List Char, containsUU l = true →
    (replaceUU l).length < l.length
  | [], h => by simp [containsUU] at h
  | [c], h => by simp [containsUU] at h
  | a :: b :: rest, h => by
    by_cases hp : (a == '_' && b == '_') = true
    · have := replaceUU_length_le rest
      simp only [replaceUU, if_pos hp, List.length_cons]
      omega
    · simp only [containsUU, hp, Bool.false_or] at h
      have := replaceUU_length_lt (b :: rest) h
      simp only [replaceUU, if_neg hp, List.length_cons]
      simp only [List.length_cons] at this
      omega

theorem collapseGo_not_containsUU : ∀ (n : Nat) (l : List Char), l.length ≤ n →
    containsUU (collapseGo n l) = false
  | 0, l, h => by
    have : l = [] := List.length_eq_zero.mp (Nat.le_zero.mp h)
    subst this
    simp [collapseGo, containsUU]
  | n + 1, l, h => by
    by_cases hc : containsUU l = true
    · have hlt := replaceUU_length_lt l hc
      have : (replaceUU l).length ≤ n := by omega
      simpa [collapseGo, hc] using collapseGo_not_containsUU n (replaceUU l) this
    · simp only [Bool.not_eq_true] at hc
      simp [collapseGo, hc]

theorem collapse_not_containsUU (l : List Char) : containsUU (collapse l) = false :=
  collapseGo_not_containsUU l.length l (Nat.le_refl _)

theorem sanChar_allowed (c : Char) : allowedChar (sanChar c) = true := by
  unfold sanChar
  by_cases h : allowedChar c = true
  · simp [h]
  · simp [h]
    decide

theorem map_sanChar_all (l : List Char) : (l.map sanChar).all allowedChar = true := by
  induction l with
  | nil => rfl
  | cons c t ih => simp [sanChar_allowed, ih]

theorem replaceUU_all (p : Char → Bool) (hu : p '_' = true) :
    ∀ l : List Char, l.all p = true → (replaceUU l).all p = true
  | [], _ => rfl
  | [c], h => by simpa [replaceUU] using h
  | a :: b :: rest, h => by
    simp only [List.all_cons, Bool.and_eq_true] at h
    by_cases hp : (a == '_' && b == '_') = true
    · have := replaceUU_all p hu rest h.2.2
      simp [replaceUU, hp, hu, this]
    · have := replaceUU_all p hu (b :: rest) (by simp [h.2.1, h.2.2])
      simp [replaceUU, hp, h.1, this]

theorem collapseGo_all (p : Char → Bool) (hu : p '_' = true) :
    ∀ (n : Nat) (l : List Char), l.all p = true → (collapseGo n l).all p = true
  | 0, l, h => h
  | n + 1, l, h => by
    by_cases hc : containsUU l = true
    · simpa [collapseGo, hc] using
        collapseGo_all p hu n (replaceUU l) (replaceUU_all p hu l h)
    · simp only [Bool.not_eq_true] at hc
      simpa [collapseGo, hc] using h

theorem dropWhile_all (p q : Char → Bool) :
    ∀ l : List Char, l.all p = true → (l.dropWhile q).all p = true
  | [], _ => rfl
  | c :: t, h => by
    simp only [List.all_cons, Bool.and_eq_true] at h
    by_cases hq : q c = true
    · simpa [List.dropWhile, hq] using dropWhile_all p q t h.2
    · simpa [List.dropWhile, hq] using And.intro h.1 (by simpa using h.2)

theorem dropTrailingIf_all (p q : Char → Bool) :
    ∀ l : List Char, l.all p = true → (dropTrailingIf q l).all p = true
  | [], _ => rfl
  | c :: t, h => by
    simp only [List.all_cons, Bool.and_eq_true] at h
    have ih := dropTrailingIf_all p q t h.2
    by_cases he : ((dropTrailingIf q t).isEmpty && q c) = true
    · simp [dropTrailingIf, he]
    · simpa [dropTrailingIf, he] using And.intro h.1 (by simpa using ih)

theorem containsUU_tail (a : Char) (t : List Char)
    (h : containsUU (a :: t) = false) : containsUU t = false := by
  cases t with
  | nil => rfl
  | cons b r =>
    simp only [containsUU, Bool.or_eq_false_iff] at h
    exact h.2

theorem dropWhile_not_containsUU (q : Char → Bool) :
    ∀ l : List Char, containsUU l = false → containsUU (l.dropWhile q) = false
  | [], _ => rfl
  | c :: t, h => by
    by_cases hq : q c = true
    · simpa [List.dropWhile, hq] using
        dropWhile_not_containsUU q t (containsUU_tail c t h)
    · simpa [List.dropWhile, hq] using h

theorem dropTrailingIf_cons (q : Char → Bool) (x : Char) (t : List Char) :
    dropTrailingIf q (x :: t) = [] ∨
      dropTrailingIf q (x :: t) = x :: dropTrailingIf q t := by
  by_cases he : ((dropTrailingIf q t).isEmpty && q x) = true
  · exact Or.inl (by simp [dropTrailingIf, he])
  · exact Or.inr (by simp [dropTrailingIf, he])

theorem dropTrailingIf_not_containsUU (q : Char → Bool) :
    ∀ l : List Char, containsUU l = false →
      containsUU (dropTrailingIf q l) = false
  | [], _ => rfl
  | c :: t, h => by
    have ih := dropTrailingIf_not_containsUU q t (containsUU_tail c t h)
    rcases dropTrailingIf_cons q c t with hc | hc
    · simp [hc, containsUU]
    · rw [hc]
      cases ht : dropTrailingIf q t with
      | nil => simp [containsUU]
      | cons b r =>
        rw [ht] at ih
        cases t with
        | nil => simp [dropTrailingIf] at ht
        | cons x t2 =>
          have hb : b = x := by
            rcases dropTrailingIf_cons q x t2 with h2 | h2
            · rw [h2] at ht
              cases ht
            · rw [h2] at ht
              exact (List.cons.injEq _ _ _ _ ▸ ht).1.symm
          subst hb
          simp only [containsUU, Bool.or_eq_false_iff] at h ⊢
          exact ⟨h.1, ih⟩

theorem dropWhile_head_not (q : Char → Bool) :
    ∀ (l t : List Char) (a : Char), l.dropWhile q = a :: t → q a = false
  | [], _, _, h => by cases h
  | c :: r, t, a, h => by
    by_cases hq : q c = true
    · rw [List.dropWhile_cons_of_pos hq] at h
      exact dropWhile_head_not q r t a h
    · rw [List.dropWhile_cons_of_neg (by simpa using hq)] at h
      cases h
      simpa using hq

theorem dropTrailingIf_last_not (q : Char → Bool) :
    ∀ (l : List Char) (a : Char),
      (dropTrailingIf q l).getLast? = some a → q a = false
  | [], a, h => by cases h
  | c :: t, a, h => by
    by_cases he : ((dropTrailingIf q t).isEmpty && q c) = true
    · rw [show dropTrailingIf q (c :: t) = [] by simp [dropTrailingIf, he]] at h
      cases h
    · rw [show dropTrailingIf q (c :: t) = c :: dropTrailingIf q t by
        simp [dropTrailingIf, he]] at h
      cases hr : dropTrailingIf q t with
      | nil =>
        rw [hr] at h
        simp only [List.getLast?_singleton, Option.some.injEq] at h
        subst h
        simp only [hr, List.isEmpty_nil, Bool.true_and] at he
        simpa using he
      | cons b r2 =>
        rw [hr, List.getLast?_cons_cons] at h
        rw [← hr] at h
        exact dropTrailingIf_last_not q t a h

theorem collapseGo_id (n : Nat) (l : List Char) (h : containsUU l = false) :
    collapseGo n l = l := by
  cases n with
  | zero => rfl
  | succ m => simp [collapseGo, h]

theorem map_sanChar_id :
    ∀ l : List Char, l.all allowedChar = true → l.map sanChar = l
  | [], _ => rfl
  | c :: t, h => by
    simp only [List.all_cons, Bool.and_eq_true] at h
    simp only [List.map_cons, sanChar, if_pos h.1, List.cons.injEq]
    exact ⟨trivial, map_sanChar_id t h.2⟩

theorem dropWhile_id (q : Char → Bool) (l : List Char)
    (h : ∀ a t, l = a :: t → q a = false) : l.dropWhile q = l := by
  cases l with
  | nil => rfl
  | cons a t => exact List.dropWhile_cons_of_neg (by simpa using h a t rfl)

theorem dropTrailingIf_id (q : Char → Bool) :
    ∀ l : List Char, (∀ a, l.getLast? = some a → q a = false) →
      dropTrailingIf q l = l
  | [], _ => rfl
  | c :: t, h => by
    cases t with
    | nil =>
      have hc : q c = false := h c (by simp)
      simp [dropTrailingIf, hc]
    | cons x t2 =>
      have ih : dropTrailingIf q (x :: t2) = x :: t2 :=
        dropTrailingIf_id q (x :: t2)
          (fun a ha => h a (by rw [List.getLast?_cons_cons]; exact ha))
      have hstep : dropTrailingIf q (c :: x :: t2) =
          if (dropTrailingIf q (x :: t2)).isEmpty && q c then []
          else c :: dropTrailingIf q (x :: t2) := rfl
      rw [hstep, ih]
      simp

theorem dropTrailingIf_head (q : Char → Bool) (m : List Char) (a : Char)
    (t : List Char) (h : dropTrailingIf q m = a :: t) : ∃ t2, m = a :: t2 := by
  cases m with
  | nil => cases h
  | cons c r =>
    rcases dropTrailingIf_cons q c r with hc | hc
    · rw [hc] at h
      cases h
    · rw [hc] at h
      injection h with h1 h2
      exact ⟨r, by rw [h1]⟩

theorem sanitizeList_all (l : List Char) :
    (sanitizeList l).all allowedChar = true :=
  dropTrailingIf_all _ _ _
    (dropWhile_all _ _ _
      (collapseGo_all allowedChar (by decide) _ _ (map_sanChar_all l)))

theorem sanitizeList_not_containsUU (l : List Char) :
    containsUU (sanitizeList l) = false :=
  dropTrailingIf_not_containsUU _ _
    (dropWhile_not_containsUU _ _ (collapse_not_containsUU _))

theorem sanitizeList_head (l : List Char) (a : Char) (t : List Char)
    (h : sanitizeList l = a :: t) : (a == '_') = false := by
  obtain ⟨t2, h2⟩ := dropTrailingIf_head (· == '_')
    (List.dropWhile (· == '_') (collapse (List.map sanChar l))) a t h
  exact dropWhile_head_not (· == '_')
    (collapse (List.map sanChar l)) t2 a h2

theorem sanitizeList_last (l : List Char) (a : Char)
    (h : (sanitizeList l).getLast? = some a) : (a == '_') = false :=
  dropTrailingIf_last_not (· == '_')
    (List.dropWhile (· == '_') (collapse (List.map sanChar l))) a h

theorem sanitizeList_idem (l : List Char) :
    sanitizeList (sanitizeList l) = sanitizeList l := by
  show trimUnderscores (collapse ((sanitizeList l).map sanChar)) = sanitizeList l
  rw [map_sanChar_id _ (sanitizeList_all l)]
  rw [show collapse (sanitizeList l) = sanitizeList l from
    collapseGo_id _ _ (sanitizeList_not_containsUU l)]
  show dropTrailingIf (· == '_') ((sanitizeList l).dropWhile (· == '_')) = sanitizeList l
  rw [dropWhile_id _ _ (fun a t ht => sanitizeList_head l a t ht)]
  exact dropTrailingIf_id _ _ (fun a ha => sanitizeList_last l a ha)

/-!
Claim theorems.
-/

/-- C3: for every input string, sanitize_hostname produces only ASCII
alphanumerics, dashes and underscores, contains no two adjacent
underscores (adjacent-pair freedom of the character list is exactly
absence of the two-underscore substring), and neither starts nor ends
with an underscore; on the empty string it returns the empty string. -/
theorem claim_C3_sanitize_wellformed (s : String) :
    ((sanitize_hostname s).data.all allowedChar = true) ∧
    (containsUU (sanitize_hostname s).data = false) ∧
    ((sanitize_hostname s).data.head? ≠ some '_') ∧
    ((sanitize_hostname s).data.getLast? ≠ some '_') ∧
    sanitize_hostname "" = "" := by
  refine ⟨sanitizeList_all s.data, sanitizeList_not_containsUU s.data, ?_, ?_, rfl⟩
  · intro hh
    cases hl : (sanitize_hostname s).data with
    | nil => rw [hl] at hh; cases hh
    | cons a t =>
      rw [hl] at hh
      simp only [List.head?_cons, Option.some.injEq] at hh
      subst hh
      have := sanitizeList_head s.data '_' t hl
      simp at this
  · intro hh
    have := sanitizeList_last s.data '_' hh
    simp at this

/-- C8: the hostname sanitizer is idempotent. -/
theorem claim_C8_sanitize_idempotent (s : String) :
    sanitize_hostname (sanitize_hostname s) = sanitize_hostname s :=
  congrArg String.mk (sanitizeList_idem s.data)

/-- C2: whenever the loaded config has no target_user, the prompt fills
target_user with the entered name and rewrites target_dest to
/home/<entered user>/bin, regardless of any prior value of target_dest. -/
theorem claim_C2_prompt_overwrites_dest (w : World) (c : Config)
    (h : c.target_user = none) :
    ((promptMissing w c).2.1).target_dest
        = some ("/home/" ++ trimWS w.stdinUser ++ "/bin") ∧
    ((promptMissing w c).2.1).target_user = some (trimWS w.stdinUser) := by
  obtain ⟨ta, td, tn, tu⟩ := c
  subst h
  cases tn <;> exact ⟨rfl, rfl⟩

/-- Witness for C2: the loaded config customDestConfig has a custom
target_dest and no target_user; after the prompt enters alice, the
destination is /home/alice/bin. -/
theorem claim_C2_witness :
    customDestConfig.target_user = none ∧
    (((promptMissing okWorld customDestConfig).2.1).target_dest
        = some "/home/alice/bin" ∧
     ((promptMissing okWorld customDestConfig).2.1).target_user
        = some "alice") :=
  ⟨rfl, claim_C2_prompt_overwrites_dest okWorld customDestConfig rfl⟩

/-- C5: when the non-interactive SSH connectivity probe succeeds, the
trust bootstrap returns immediately with the probe as its only effect:
no key generation, no key installation, no key file creation. -/
theorem claim_C5_probe_success_no_side_effects (w : World)
    (target_name target_user : String) (h : w.probeOk = true) :
    configure_ssh_key w target_name target_user
      = ([Event.sshProbe (target_user ++ "@" ++ target_name)], Except.ok ()) := by
  simp [configure_ssh_key, h]

/-- Witness for C5: in okWorld the probe succeeds and the bootstrap trace
is exactly the probe. -/
theorem claim_C5_witness :
    okWorld.probeOk = true ∧
    configure_ssh_key okWorld "pi.local" "alice"
      = ([Event.sshProbe "alice@pi.local"], Except.ok ()) :=
  ⟨rfl, claim_C5_probe_success_no_side_effects okWorld "pi.local" "alice" rfl⟩

/-- C6: when the probe fails, the home directory is known and a key file
already exists at the deterministic path, the trust bootstrap emits
exactly the probe and the ssh-copy-id installation: generation is skipped
and installation still runs, with the existing key path. -/
theorem claim_C6_existing_key_skips_generation (w : World)
    (target_name target_user home : String) (h1 : w.probeOk = false)
    (h2 : w.homeVar = some home) (h3 : w.keyFileExists = true) :
    (configure_ssh_key w target_name target_user).1
      = [Event.sshProbe (target_user ++ "@" ++ target_name),
         Event.sshCopyId
           (home ++ "/.ssh/id_ed25519_" ++ target_user ++ "_"
             ++ sanitize_hostname target_name)
           (target_user ++ "@" ++ target_name)] := by
  simp only [configure_ssh_key, h1, h2, h3, Bool.false_eq_true, if_false,
    Bool.true_or, if_true]
  cases hc : w.copyIdOk <;> simp

/-- Witness for C6: probe failure with an existing key in a concrete
world produces exactly the probe followed by the installation. -/
theorem claim_C6_witness :
    ({ okWorld with probeOk := false, keyFileExists := true } : World).probeOk = false ∧
    ({ okWorld with probeOk := false, keyFileExists := true } : World).homeVar
      = some "/home/dev" ∧
    ({ okWorld with probeOk := false, keyFileExists := true } : World).keyFileExists = true ∧
    (configure_ssh_key { okWorld with probeOk := false, keyFileExists := true }
        "pi.local" "alice").1
      = [Event.sshProbe "alice@pi.local",
         Event.sshCopyId "/home/dev/.ssh/id_ed25519_alice_pi_local" "alice@pi.local"] :=
  ⟨rfl, rfl, rfl,
    claim_C6_existing_key_skips_generation
      { okWorld with probeOk := false, keyFileExists := true }
      "pi.local" "alice" "/home/dev" rfl rfl rfl⟩

/-- C7: deserializing the serialization of any config record gives back
exactly that record; this is the JSON-document level of the save and load
round trip of save_config and load_or_create_config, the textual printing
and parsing of the document being the serde_json library treated as an
external collaborator. -/
theorem claim_C7_config_round_trip (c : Config) :
    decodeConfig (encodeConfig c) = some c := by
  obtain ⟨ta, td, tn, tu⟩ := c
  cases ta <;> cases td <;> cases tn <;> cases tu <;> rfl

/-- Counterexample to C1 as stated: in a fully configured, all-success
run, the build invocation precedes the SSH connectivity probe, so the
trace violates the claimed order in which the SSH trust bootstrap step
runs before the build step. -/
theorem claim_C1_counterexample :
    probesBeforeBuilds (runMain okWorld { debug := false }).1 = false := by
  rfl

/-- C1 amended: in every run the steps execute in the order config
bootstrap, then build, then SSH trust bootstrap, then remote directory
ensure, then artifact resolution and transfer; in particular the build
step runs before the SSH trust bootstrap step, not after it. -/
theorem claim_C1_step_order (w : World) (args : Args) :
    ranksSorted (runMain w args).1 = true := by
  obtain ⟨fc, sh, su, hv, pOk, ke, kg, ci, bOk, mk, mb, sOk⟩ := w
  obtain ⟨dbg⟩ := args
  rcases fc with _ | ⟨ta, td, tn, tu⟩
  · cases bOk <;> cases pOk <;> rcases hv with _ | h <;> cases ke <;> cases kg <;>
      cases ci <;> cases mk <;> rcases mb with _ | b <;> rfl
  · rcases tn with _ | n <;> rcases tu with _ | u <;> cases bOk <;> cases pOk <;>
      rcases hv with _ | h <;> cases ke <;> cases kg <;> cases ci <;> cases mk <;>
      rcases mb with _ | b <;> rfl

/-- C4: whenever the build subprocess reports a non-zero exit, the run
aborts with an error before any later step leaves an effect; whenever the
remote mkdir reports a non-zero exit, the run aborts with an error and
neither the artifact resolution nor the transfer runs; whenever the scp
transfer reports a non-zero exit, the run aborts with an error. Each
conclusion also covers runs that abort even earlier, where the failing
step is never reached. -/
theorem claim_C4_failures_are_fatal (w : World) (args : Args) :
    (w.buildOk = false →
      resultIsError (runMain w args).2 = true ∧
      allPreTrust (runMain w args).1 = true) ∧
    (w.mkdirOk = false →
      resultIsError (runMain w args).2 = true ∧
      allPreMetadata (runMain w args).1 = true) ∧
    (w.scpOk = false →
      resultIsError (runMain w args).2 = true) := by
  obtain ⟨fc, sh, su, hv, pOk, ke, kg, ci, bOk, mk, mb, sOk⟩ := w
  obtain ⟨dbg⟩ := args
  refine ⟨fun h => ?_, fun h => ?_, fun h => ?_⟩
  · subst h
    rcases fc with _ | ⟨ta, td, tn, tu⟩
    · exact ⟨rfl, rfl⟩
    · rcases tn with _ | n <;> rcases tu with _ | u <;> exact ⟨rfl, rfl⟩
  · subst h
    rcases fc with _ | ⟨ta, td, tn, tu⟩
    · cases bOk <;> cases pOk <;> rcases hv with _ | h2 <;> cases ke <;>
        cases kg <;> cases ci <;> exact ⟨rfl, rfl⟩
    · rcases tn with _ | n <;> rcases tu with _ | u <;> cases bOk <;>
        cases pOk <;> rcases hv with _ | h2 <;> cases ke <;> cases kg <;>
        cases ci <;> exact ⟨rfl, rfl⟩
  · subst h
    rcases fc with _ | ⟨ta, td, tn, tu⟩
    · cases bOk <;> cases pOk <;> rcases hv with _ | h2 <;> cases ke <;>
        cases kg <;> cases ci <;> cases mk <;> rcases mb with _ | b <;> rfl
    · rcases tn with _ | n <;> rcases tu with _ | u <;> cases bOk <;>
        cases pOk <;> rcases hv with _ | h2 <;> cases ke <;> cases kg <;>
        cases ci <;> cases mk <;> rcases mb with _ | b <;> rfl

/-- Witness for C4: a world where the build, mkdir and scp subprocesses
all fail aborts with an error and leaves no effect beyond the build. -/
theorem claim_C4_witness :
    ({ okWorld with buildOk := false, mkdirOk := false, scpOk := false } : World).buildOk
        = false ∧
    (resultIsError
        (runMain { okWorld with buildOk := false, mkdirOk := false, scpOk := false }
          { debug := false }).2 = true ∧
      allPreTrust
        (runMain { okWorld with buildOk := false, mkdirOk := false, scpOk := false }
          { debug := false }).1 = true) ∧
    (resultIsError
        (runMain { okWorld with buildOk := false, mkdirOk := false, scpOk := false }
          { debug := false }).2 = true ∧
      allPreMetadata
        (runMain { okWorld with buildOk := false, mkdirOk := false, scpOk := false }
          { debug := false }).1 = true) ∧
    resultIsError
        (runMain { okWorld with buildOk := false, mkdirOk := false, scpOk := false }
          { debug := false }).2 = true :=
  ⟨rfl,
    (claim_C4_failures_are_fatal _ _).1 rfl,
    (claim_C4_failures_are_fatal _ _).2.1 rfl,
    (claim_C4_failures_are_fatal _ _).2.2 rfl⟩

/-- C9: with no config file, host pi.local and user alice entered at the
prompts, no debug flag and every subprocess succeeding, the run first
persists the default record, prompts twice, persists the filled record
with user alice, destination /home/alice/bin, host pi.local and the
default architecture, builds in release mode for that architecture,
probes ssh, ensures the remote directory, resolves the artifact name and
uploads target/aarch64-unknown-linux-gnu/release/<artifact>. -/
theorem claim_C9_first_run_scenario (b : String) :
    runMain
      { configFile := none
        stdinHost := "pi.local"
        stdinUser := "alice"
        homeVar := some "/home/dev"
        probeOk := true
        keyFileExists := false
        keygenOk := true
        copyIdOk := true
        buildOk := true
        mkdirOk := true
        metadataBin := some b
        scpOk := true }
      { debug := false }
    = ([Event.writeConfig Config.default,
        Event.promptHost,
        Event.promptUser,
        Event.writeConfig
          { target_arch := some "aarch64-unknown-linux-gnu"
            target_dest := some "/home/alice/bin"
            target_name := some "pi.local"
            target_user := some "alice" },
        Event.runBuild "aarch64-unknown-linux-gnu" true,
        Event.sshProbe "alice@pi.local",
        Event.sshMkdir "alice@pi.local" "/home/alice/bin",
        Event.cargoMetadata,
        Event.scpUpload ("target/aarch64-unknown-linux-gnu/release/" ++ b)
          "alice@pi.local:/home/alice/bin"],
       Except.ok ()) := by
  rfl

set_option maxHeartbeats 2000000 in
/-- C10: when the loaded config file already carries target_name and
target_user, the run never writes the config file again; a missing
target_arch or target_dest is replaced by its default only in the values
handed to the build and the remote mkdir, leaving the stored record
untouched: the single build invocation uses target_arch or its default,
and any remote mkdir uses target_dest or its default. -/
theorem claim_C10_complete_config_not_rewritten (w : World) (args : Args)
    (c : Config) (n u : String) (h1 : w.configFile = some c)
    (h2 : c.target_name = some n) (h3 : c.target_user = some u) :
    writtenConfigs (runMain w args).1 = [] ∧
    buildInvocations (runMain w args).1
      = [(c.target_arch.getD "aarch64-unknown-linux-gnu", !args.debug)] ∧
    (mkdirDests (runMain w args).1 = [] ∨
      mkdirDests (runMain w args).1 = [c.target_dest.getD "/home/raspberry/bin"]) := by
  obtain ⟨fc, sh, su, hv, pOk, ke, kg, ci, bOk, mk, mb, sOk⟩ := w
  obtain ⟨dbg⟩ := args
  subst h1
  obtain ⟨ta, td, tn, tu⟩ := c
  subst h2
  subst h3
  rcases ta with _ | a <;> rcases td with _ | d <;> cases bOk <;> cases pOk <;>
    rcases hv with _ | hm <;> cases ke <;> cases kg <;> cases ci <;> cases mk <;>
    rcases mb with _ | b <;>
    exact ⟨rfl, rfl, by first | exact Or.inl rfl | exact Or.inr rfl⟩

/-- Witness for C10: a config file with host and user present but null
architecture and destination is not rewritten; the build uses the default
architecture and the remote mkdir uses the default destination. -/
theorem claim_C10_witness :
    ({ okWorld with
        configFile := some (Config.mk none none (some "pi.local") (some "alice")) } : World).configFile
      = some (Config.mk none none (some "pi.local") (some "alice")) ∧
    (Config.mk none none (some "pi.local") (some "alice")).target_name = some "pi.local" ∧
    (Config.mk none none (some "pi.local") (some "alice")).target_user = some "alice" ∧
    (writtenConfigs
        (runMain
          { okWorld with
              configFile := some (Config.mk none none (some "pi.local") (some "alice")) }
          { debug := false }).1 = [] ∧
      buildInvocations
        (runMain
          { okWorld with
              configFile := some (Config.mk none none (some "pi.local") (some "alice")) }
          { debug := false }).1 = [("aarch64-unknown-linux-gnu", true)] ∧
      (mkdirDests
          (runMain
            { okWorld with
                configFile := some (Config.mk none none (some "pi.local") (some "alice")) }
            { debug := false }).1 = [] ∨
        mkdirDests
          (runMain
            { okWorld with
                configFile := some (Config.mk none none (some "pi.local") (some "alice")) }
            { debug := false }).1 = ["/home/raspberry/bin"])) :=
  ⟨rfl, rfl, rfl,
    claim_C10_complete_config_not_rewritten
      { okWorld with
          configFile := some (Config.mk none none (some "pi.local") (some "alice")) }
      { debug := false }
      (Config.mk none none (some "pi.local") (some "alice"))
      "pi.local" "alice" rfl rfl rfl⟩
